import Mathlib

/-!
Shallow embedding of the IBC 02-client keeper (light-client registry):
`CreateClient`, `UpdateClient` and `CheckMisbehaviourAndUpdateState`,
together with the abstract key-value client store they read and write.

The store is embedded as association lists so that states have decidable
equality and every operation is executable.  The keeper's logging and event
emission are external observers with no effect on the store and are omitted.
The per-consensus-type verification strategy (the `07-tendermint` package)
and the keeper's `initialize` helper are not part of the sources; they are
modelled from the specification, as marked in their doc comments.
-/

set_option autoImplicit false

/-- Enumerated consensus-type tag (`exported.ClientType`).  `Tendermint` is
the one tag with a registered verifier strategy; `Other` stands for any tag
with no registered strategy, reaching the `default` arm of the keeper's
dispatch. -/
inductive ClientType where
  | Tendermint
  | Other
deriving DecidableEq, Repr

/-- Per-client record (`exported.ClientState`): the client identifier it is
stored under, the latest verified height, and the frozen flag/height.
Consensus-type-specific parameters are opaque to the core and omitted. -/
structure ClientState where
  id : String
  latestHeight : Nat
  frozenHeight : Option Nat
deriving DecidableEq, Repr

/-- Accessor `ClientState.IsFrozen`: the frozen flag. -/
def ClientState.IsFrozen (cs : ClientState) : Bool :=
  cs.frozenHeight.isSome

/-- Accessor `ClientState.GetLatestHeight`. -/
def ClientState.GetLatestHeight (cs : ClientState) : Nat :=
  cs.latestHeight

/-- Per-(client, height) snapshot (`exported.ConsensusState`): the height it
certifies and the remote state root; the cryptographic commitment data is
opaque to the core. -/
structure ConsensusState where
  height : Nat
  root : Nat
deriving DecidableEq, Repr

/-- Externally supplied header (`exported.Header`): the consensus type it
claims, its target height and claimed state root.  The field `valid`
abstracts the consensus-specific cryptographic validation (signatures,
commit verification against the trust anchor), which the spec treats as a
pluggable strategy outside the core. -/
structure Header where
  clientType : ClientType
  height : Nat
  root : Nat
  valid : Bool
deriving DecidableEq, Repr

/-- Accessor for `Header.ClientType`. -/
def Header.ClientTypeOf (h : Header) : ClientType :=
  h.clientType

/-- Accessor for `Header.GetHeight`. -/
def Header.GetHeight (h : Header) : Nat :=
  h.height

/-- Misbehaviour evidence for the tendermint strategy (`tendermint.Evidence`):
two headers claimed to conflict at the evidence height for one client. -/
structure Evidence where
  clientID : String
  height : Nat
  header1 : Header
  header2 : Header
deriving DecidableEq, Repr

/-- Externally supplied misbehaviour value (`exported.Misbehaviour`).  The
keeper dispatches on the concrete type of this value: `tm` is
`tendermint.Evidence`; `unknownEvidence` stands for any other concrete
evidence type, reaching the `default` arm. -/
inductive Misbehaviour where
  | tm (e : Evidence)
  | unknownEvidence (clientID : String) (height : Nat)
deriving DecidableEq, Repr

/-- Accessor `Misbehaviour.GetClientID`. -/
def Misbehaviour.GetClientID : Misbehaviour → String
  | .tm e => e.clientID
  | .unknownEvidence cid _ => cid

/-- Accessor `Misbehaviour.GetHeight`. -/
def Misbehaviour.GetHeight : Misbehaviour → Nat
  | .tm e => e.height
  | .unknownEvidence _ h => h

/-- Accessor `Misbehaviour.ClientType`: the consensus type the evidence claims. -/
def Misbehaviour.ClientTypeOf : Misbehaviour → ClientType
  | .tm _ => ClientType.Tendermint
  | .unknownEvidence _ _ => ClientType.Other

/-- Ordinary (recoverable) errors of the registry, one constructor per
distinct error value the keeper returns (`types.Err*`,
`sdkerrors.ErrUnknownRequest`, and the verifier strategy's own errors). -/
inductive ClientError where
  | ErrClientExists
  | ErrClientTypeNotFound
  | ErrInvalidConsensus
  | ErrClientNotFound
  | ErrClientFrozen
  | ErrInvalidClientType
  | ErrConsensusStateNotFound
  | ErrUnknownRequest
  | ErrValidationFailed
  | ErrNotMisbehaviour
deriving DecidableEq, Repr

/-- First-match association-list lookup, the embedding of a key-value store
read. -/
def getEntry {α β : Type} [DecidableEq α] : List (α × β) → α → Option β
  | [], _ => none
  | (k', v') :: rest, k => if k' = k then some v' else getEntry rest k

/-- Association-list write: replace the first binding of the key, else
append a fresh binding; the embedding of a key-value store write. -/
def setEntry {α β : Type} [DecidableEq α] : List (α × β) → α → β → List (α × β)
  | [], k, v => [(k, v)]
  | (k', v') :: rest, k, v =>
    if k' = k then (k, v) :: rest else (k', v') :: setEntry rest k v

/-- The abstract client store: ClientState by identifier, ConsensusTypeTag
by identifier, ConsensusState by (identifier, height). -/
structure Store where
  clientStates : List (String × ClientState)
  clientTypes : List (String × ClientType)
  consensusStates : List ((String × Nat) × ConsensusState)
deriving DecidableEq, Repr

/-- Embeds `Keeper.GetClientState`. -/
def GetClientState (s : Store) (clientID : String) : Option ClientState :=
  getEntry s.clientStates clientID

/-- Embeds `Keeper.SetClientState`: the record is stored under its own identifier
(`clientState.GetID()`). -/
def SetClientState (s : Store) (cs : ClientState) : Store :=
  { s with clientStates := setEntry s.clientStates cs.id cs }

/-- Embeds `Keeper.GetClientType`. -/
def GetClientType (s : Store) (clientID : String) : Option ClientType :=
  getEntry s.clientTypes clientID

/-- Embeds `Keeper.SetClientType`. -/
def SetClientType (s : Store) (clientID : String) (ct : ClientType) : Store :=
  { s with clientTypes := setEntry s.clientTypes clientID ct }

/-- Embeds `Keeper.GetClientConsensusState`. -/
def GetClientConsensusState (s : Store) (clientID : String) (height : Nat) :
    Option ConsensusState :=
  getEntry s.consensusStates (clientID, height)

/-- Embeds `Keeper.SetClientConsensusState`. -/
def SetClientConsensusState (s : Store) (clientID : String) (height : Nat)
    (cons : ConsensusState) : Store :=
  { s with consensusStates := setEntry s.consensusStates (clientID, height) cons }

/-- Outcome of a keeper operation: a result plus the store after the call,
an ordinary error return plus the store after the call, or a fatal halt
(the Go `panic`), which never yields a store. -/
inductive OpResult (α : Type) where
  | ok (a : α) (s : Store)
  | err (e : ClientError) (s : Store)
  | fatal (msg : String)
deriving DecidableEq, Repr

/-- Modelled from the spec: `tendermint.CheckValidityAndUpdateState`, the
tendermint verifier strategy's validate-and-update function, whose source
(`x/ibc/07-tendermint`) is not part of the given files.  Per the spec it
either rejects the header or returns a new ClientState and a new
ConsensusState for the header's target height; cryptographic validation is
abstracted by `Header.valid`, and a header at or below the latest verified
height is deterministically rejected as stale (the spec's tie-break left to
the strategy, made deterministic; "latest height only increases").  The
chain-context argument is consumed by the abstract validity oracle. -/
def tmCheckValidityAndUpdateState (cs : ClientState) (header : Header)
    (_chainID : String) : Except ClientError (ClientState × ConsensusState) :=
  if header.valid = true ∧ cs.latestHeight < header.height then
    Except.ok ({ cs with latestHeight := header.height },
               { height := header.height, root := header.root })
  else
    Except.error ClientError.ErrValidationFailed

/-- Modelled from the spec: `tendermint.CheckMisbehaviourAndUpdateState`,
the tendermint strategy's misbehaviour check, whose source
(`x/ibc/07-tendermint`) is not part of the given files.  Per the spec it
re-derives validity of both conflicting claims against the stored
ConsensusState (abstracted by `Header.valid` and the tendermint type of the
headers) and, when both are independently valid at the evidence height yet
mutually conflicting, returns the ClientState with the frozen flag set to
the evidence height; otherwise it rejects the evidence ("not
misbehaviour") with no state change. -/
def tmCheckMisbehaviourAndUpdateState (cs : ClientState)
    (_consensusState : ConsensusState) (m : Misbehaviour) (height : Nat) :
    Except ClientError ClientState :=
  match m with
  | .tm ev =>
    if ev.header1.height = height ∧ ev.header2.height = height ∧
       ev.header1.valid = true ∧ ev.header2.valid = true ∧
       ev.header1.clientType = ClientType.Tendermint ∧
       ev.header2.clientType = ClientType.Tendermint ∧
       ev.header1.root ≠ ev.header2.root then
      Except.ok { cs with frozenHeight := some height }
    else
      Except.error ClientError.ErrNotMisbehaviour
  | .unknownEvidence _ _ => Except.error ClientError.ErrNotMisbehaviour

/-- Modelled from the spec: `Keeper.initialize`, whose source is not part of
the given files.  Per the spec it delegates to the verifier strategy
matching the tag to materialize an initial ClientState from the given
ConsensusState, and fails for a tag with no registered strategy. -/
def initClientState (clientID : String) (clientType : ClientType)
    (consensusState : ConsensusState) : Except ClientError ClientState :=
  match clientType with
  | ClientType.Tendermint =>
    Except.ok { id := clientID, latestHeight := consensusState.height,
                frozenHeight := none }
  | ClientType.Other => Except.error ClientError.ErrInvalidClientType

/-- Embeds `Keeper.CreateClient`: fails with `ErrClientExists` if a ClientState
already exists; halts fatally if a client type is already defined without a
ClientState; otherwise initializes, then persists the ClientState and the
client type. -/
def CreateClient (s : Store) (clientID : String) (clientType : ClientType)
    (consensusState : ConsensusState) : OpResult ClientState :=
  match GetClientState s clientID with
  | some _ => OpResult.err ClientError.ErrClientExists s
  | none =>
    match GetClientType s clientID with
    | some _ => OpResult.fatal (s!"client type is already defined for client {clientID}")
    | none =>
      match initClientState clientID clientType consensusState with
      | Except.error e => OpResult.err e s
      | Except.ok clientState =>
        OpResult.ok clientState
          (SetClientType (SetClientState s clientState) clientID clientType)

/-- Embeds `Keeper.UpdateClient`: requires a stored client type, a matching header
type, a stored ClientState and an unfrozen client, then dispatches on the
tag to the verifier strategy and, on success, persists the new ClientState
and the new ConsensusState at the header height. -/
def UpdateClient (s : Store) (chainID : String) (clientID : String)
    (header : Header) : OpResult Unit :=
  match GetClientType s clientID with
  | none => OpResult.err ClientError.ErrClientTypeNotFound s
  | some clientType =>
    if header.ClientTypeOf ≠ clientType then
      OpResult.err ClientError.ErrInvalidConsensus s
    else
      match GetClientState s clientID with
      | none => OpResult.err ClientError.ErrClientNotFound s
      | some clientState =>
        if clientState.IsFrozen then
          OpResult.err ClientError.ErrClientFrozen s
        else
          match clientType with
          | ClientType.Tendermint =>
            match tmCheckValidityAndUpdateState clientState header chainID with
            | Except.error e => OpResult.err e s
            | Except.ok (clientState', consensusState) =>
              OpResult.ok ()
                (SetClientConsensusState (SetClientState s clientState')
                  clientID header.GetHeight consensusState)
          | ClientType.Other => OpResult.err ClientError.ErrInvalidClientType s

/-- Embeds `Keeper.CheckMisbehaviourAndUpdateState`: requires a stored ClientState
for the evidence's client and a stored ConsensusState at the evidence
height, dispatches on the concrete evidence type, and on confirmed
misbehaviour persists the strategy's resulting ClientState. -/
def CheckMisbehaviourAndUpdateState (s : Store) (misbehaviour : Misbehaviour) :
    OpResult Unit :=
  match GetClientState s misbehaviour.GetClientID with
  | none => OpResult.err ClientError.ErrClientNotFound s
  | some clientState =>
    match GetClientConsensusState s misbehaviour.GetClientID misbehaviour.GetHeight with
    | none => OpResult.err ClientError.ErrConsensusStateNotFound s
    | some consensusState =>
      match misbehaviour with
      | Misbehaviour.tm _ =>
        match tmCheckMisbehaviourAndUpdateState clientState consensusState
            misbehaviour misbehaviour.GetHeight with
        | Except.error e => OpResult.err e s
        | Except.ok clientState' => OpResult.ok () (SetClientState s clientState')
      | Misbehaviour.unknownEvidence _ _ =>
        OpResult.err ClientError.ErrUnknownRequest s

/-- The store after a keeper operation, when the operation did not halt
fatally. -/
def storeOf {α : Type} : OpResult α → Option Store
  | OpResult.ok _ s => some s
  | OpResult.err _ s => some s
  | OpResult.fatal _ => none

/-- The sequence of stored ClientState values observed after each update of
a run of `UpdateClient` calls on one client; `none` when some update in the
sequence is not accepted. -/
def clientTrace (chainID clientID : String) (s : Store) :
    List Header → Option (List ClientState)
  | [] => some []
  | hd :: rest =>
    match UpdateClient s chainID clientID hd with
    | OpResult.ok _ s' =>
      match GetClientState s' clientID, clientTrace chainID clientID s' rest with
      | some cs, some tl => some (cs :: tl)
      | _, _ => none
    | _ => none

/-- A stored ConsensusState entry is covered by its client: the client's
ClientState exists and its latest verified height bounds the entry's
height. -/
def consEntryOK (s : Store) (q : (String × Nat) × ConsensusState) : Bool :=
  match getEntry s.clientStates q.1.1 with
  | some cs => decide (q.1.2 ≤ cs.latestHeight)
  | none => false

/-- Store sanity invariant, established by the operations themselves: every
stored ClientState is keyed by its own identifier, and every stored
ConsensusState entry is covered by its client's latest verified height. -/
def StoreInv (s : Store) : Prop :=
  (∀ p ∈ s.clientStates, (p.2).id = p.1) ∧
  (∀ q ∈ s.consensusStates, consEntryOK s q = true)

/-- A keeper outcome preserves the stored ConsensusState entries of the
starting store and the store invariant: whenever the operation yields a
store (ok or ordinary error), every previously stored entry is still
present with the same value, and the invariant still holds. -/
def ConsPreserved {α : Type} (s : Store) (r : OpResult α) : Prop :=
  ∀ s', storeOf r = some s' →
    (∀ cid h v, GetClientConsensusState s cid h = some v →
      GetClientConsensusState s' cid h = some v) ∧ StoreInv s'

/-- Concrete fixtures used by witnesses and counterexamples. -/
def emptyStore : Store := ⟨[], [], []⟩

def csA : ClientState := ⟨"c", 5, none⟩

def csFrozen : ClientState := ⟨"c", 5, some 4⟩

def consA : ConsensusState := ⟨5, 0⟩

def hdrT6 : Header := ⟨ClientType.Tendermint, 6, 1, true⟩

def hdrT8 : Header := ⟨ClientType.Tendermint, 8, 2, true⟩

def hdrT10 : Header := ⟨ClientType.Tendermint, 10, 0, true⟩

def hdrOther10 : Header := ⟨ClientType.Other, 10, 0, true⟩

def storeActive : Store :=
  ⟨[("c", csA)], [("c", ClientType.Tendermint)], [(("c", 5), consA)]⟩

def storeFrozen : Store :=
  ⟨[("c", csFrozen)], [("c", ClientType.Tendermint)], [(("c", 5), consA)]⟩

def storeNoTag : Store := ⟨[("c", csA)], [], []⟩

def storeTagOnly : Store := ⟨[], [("c", ClientType.Tendermint)], []⟩

def storeOtherTag : Store :=
  ⟨[("c", csA)], [("c", ClientType.Other)], [(("c", 7), ⟨7, 0⟩)]⟩

def evConf5 : Evidence :=
  ⟨"c", 5, ⟨ClientType.Tendermint, 5, 1, true⟩, ⟨ClientType.Tendermint, 5, 2, true⟩⟩

def evConf7 : Evidence :=
  ⟨"c", 7, ⟨ClientType.Tendermint, 7, 1, true⟩, ⟨ClientType.Tendermint, 7, 2, true⟩⟩

def storeOtherTagAfter : Store :=
  ⟨[("c", ⟨"c", 5, some 7⟩)], [("c", ClientType.Other)], [(("c", 7), ⟨7, 0⟩)]⟩

def storeCreated : Store := ⟨[("c", csA)], [("c", ClientType.Tendermint)], []⟩

/-- Reading back the key just written returns the written value. -/
theorem getEntry_setEntry_self {α β : Type} [DecidableEq α]
    (l : List (α × β)) (k : α) (v : β) :
    getEntry (setEntry l k v) k = some v := by
  induction l with
  | nil => simp [setEntry, getEntry]
  | cons p rest ih =>
    obtain ⟨k', v'⟩ := p
    by_cases h : k' = k
    · simp [setEntry, h, getEntry]
    · simp [setEntry, h, getEntry, ih]

/-- Writing one key leaves every other key's lookup unchanged. -/
theorem getEntry_setEntry_ne {α β : Type} [DecidableEq α]
    (l : List (α × β)) (k k₀ : α) (v : β) (h : k₀ ≠ k) :
    getEntry (setEntry l k v) k₀ = getEntry l k₀ := by
  induction l with
  | nil =>
    simp only [setEntry, getEntry]
    rw [if_neg (fun h' => h h'.symm)]
  | cons p rest ih =>
    obtain ⟨k', v'⟩ := p
    by_cases hk : k' = k
    · subst hk
      simp only [setEntry, if_pos rfl, getEntry]
      rw [if_neg (fun h' => h h'.symm), if_neg (fun h' => h h'.symm)]
    · simp only [setEntry, if_neg hk, getEntry]
      by_cases hk0 : k' = k₀
      · rw [if_pos hk0, if_pos hk0]
      · rw [if_neg hk0, if_neg hk0, ih]

/-- A successful lookup comes from a binding in the list. -/
theorem mem_of_getEntry {α β : Type} [DecidableEq α]
    (l : List (α × β)) (k : α) (v : β) (h : getEntry l k = some v) :
    (k, v) ∈ l := by
  induction l with
  | nil => simp [getEntry] at h
  | cons p rest ih =>
    obtain ⟨k', v'⟩ := p
    by_cases hk : k' = k
    · subst hk
      simp [getEntry] at h
      simp [h]
    · simp only [getEntry, if_neg hk] at h
      exact List.mem_cons_of_mem _ (ih h)

/-- Every binding of the written list is the new binding or an old one. -/
theorem mem_setEntry {α β : Type} [DecidableEq α]
    (l : List (α × β)) (k : α) (v : β) (p : α × β)
    (h : p ∈ setEntry l k v) : p = (k, v) ∨ p ∈ l := by
  induction l with
  | nil => simp [setEntry] at h; simp [h]
  | cons q rest ih =>
    obtain ⟨k', v'⟩ := q
    by_cases hk : k' = k
    · simp only [setEntry, if_pos hk] at h
      rcases List.mem_cons.mp h with h' | h'
      · exact Or.inl h'
      · exact Or.inr (List.mem_cons_of_mem _ h')
    · simp only [setEntry, if_neg hk] at h
      rcases List.mem_cons.mp h with h' | h'
      · exact Or.inr (List.mem_cons.mpr (Or.inl h'))
      · rcases ih h' with h'' | h''
        · exact Or.inl h''
        · exact Or.inr (List.mem_cons_of_mem _ h'')

/-- Claim C4: every registry operation that returns an ordinary error
returns the store exactly as it was: no partial write precedes any error
return of `CreateClient`, `UpdateClient` or
`CheckMisbehaviourAndUpdateState`, so the re-queried state after a failed
call is identical to the state before it. -/
theorem ops_err_no_write (s : Store) (chainID clientID : String)
    (ct : ClientType) (cons : ConsensusState) (hd : Header) (m : Misbehaviour) :
    (∀ e s', CreateClient s clientID ct cons = OpResult.err e s' → s' = s) ∧
    (∀ e s', UpdateClient s chainID clientID hd = OpResult.err e s' → s' = s) ∧
    (∀ e s', CheckMisbehaviourAndUpdateState s m = OpResult.err e s' → s' = s) := by
  refine ⟨?_, ?_, ?_⟩ <;> intro e s' h
  · unfold CreateClient at h
    repeat' split at h
    all_goals simp_all
  · unfold UpdateClient at h
    repeat' split at h
    all_goals simp_all
  · unfold CheckMisbehaviourAndUpdateState at h
    repeat' split at h
    all_goals simp_all

/-- Witness for C4 at a concrete input: on the empty store, `UpdateClient`
fails with `ErrClientTypeNotFound` and the theorem yields the unchanged
store. -/
theorem ops_err_no_write_witness :
    UpdateClient emptyStore "gaia" "c" hdrT10 =
      OpResult.err ClientError.ErrClientTypeNotFound emptyStore ∧
    emptyStore = emptyStore :=
  ⟨by rfl,
   (ops_err_no_write emptyStore "gaia" "c" ClientType.Tendermint consA hdrT10
      (Misbehaviour.tm evConf5)).2.1 ClientError.ErrClientTypeNotFound emptyStore
     (by rfl)⟩

/-- Claim C5 counterexample: a ClientState stored without a
ConsensusTypeTag does not make the operation that detects it halt
irrecoverably — `UpdateClient` detects it and returns the ordinary,
recoverable `ErrClientTypeNotFound` error (an `OpResult.err`, not an
`OpResult.fatal`), contradicting the claim's "halts irrecoverably (panics)"
for that direction of corruption. -/
theorem storeCorruption_counterexample :
    GetClientState storeNoTag "c" = some csA ∧
    GetClientType storeNoTag "c" = none ∧
    UpdateClient storeNoTag "gaia" "c" hdrT10 =
      OpResult.err ClientError.ErrClientTypeNotFound storeNoTag :=
  ⟨by rfl, by rfl, by rfl⟩

/-- Claim C5 (amended): a ConsensusTypeTag stored without a ClientState
makes `CreateClient` halt fatally (the Go panic), while a ClientState
stored without a ConsensusTypeTag is detected by `UpdateClient` as the
ordinary, recoverable `ErrClientTypeNotFound` error with no state change,
not a fatal halt. -/
theorem storeCorruption_behavior (s : Store) (chainID clientID : String)
    (ct ct' : ClientType) (cons : ConsensusState) (hd : Header)
    (cs : ClientState) :
    (GetClientState s clientID = none → GetClientType s clientID = some ct' →
      CreateClient s clientID ct cons =
        OpResult.fatal (s!"client type is already defined for client {clientID}")) ∧
    (GetClientState s clientID = some cs → GetClientType s clientID = none →
      UpdateClient s chainID clientID hd =
        OpResult.err ClientError.ErrClientTypeNotFound s) := by
  constructor
  · intro h1 h2
    unfold CreateClient
    simp only [h1, h2]
  · intro h1 h2
    unfold UpdateClient
    simp only [h2]

/-- Witness for C5 at concrete inputs: a tag-without-state store makes
`CreateClient` halt fatally, and a state-without-tag store makes
`UpdateClient` return the ordinary error. -/
theorem storeCorruption_behavior_witness :
    (GetClientState storeTagOnly "c" = none ∧
     GetClientType storeTagOnly "c" = some ClientType.Tendermint ∧
     CreateClient storeTagOnly "c" ClientType.Tendermint consA =
       OpResult.fatal "client type is already defined for client c") ∧
    (GetClientState storeNoTag "c" = some csA ∧
     GetClientType storeNoTag "c" = none ∧
     UpdateClient storeNoTag "gaia" "c" hdrT10 =
       OpResult.err ClientError.ErrClientTypeNotFound storeNoTag) :=
  ⟨⟨by rfl, by rfl,
    (storeCorruption_behavior storeTagOnly "gaia" "c" ClientType.Tendermint
      ClientType.Tendermint consA hdrT10 csA).1 (by rfl) (by rfl)⟩,
   ⟨by rfl, by rfl,
    (storeCorruption_behavior storeNoTag "gaia" "c" ClientType.Tendermint
      ClientType.Tendermint consA hdrT10 csA).2 (by rfl) (by rfl)⟩⟩

/-- Claim C1 counterexample: an update of a frozen client does not always
fail with `ErrClientFrozen`: a header whose consensus type differs from the
stored tag fails earlier with `ErrInvalidConsensus` (the store is still
returned unchanged). -/
theorem updateClient_frozen_counterexample :
    GetClientState storeFrozen "c" = some csFrozen ∧
    csFrozen.IsFrozen = true ∧
    UpdateClient storeFrozen "gaia" "c" hdrOther10 =
      OpResult.err ClientError.ErrInvalidConsensus storeFrozen :=
  ⟨by rfl, by rfl, by rfl⟩

/-- Claim C1 (amended): an update of a client whose stored ClientState is
frozen always fails with an ordinary error and performs no store mutation
(so ClientState, ConsensusTypeTag and all ConsensusState entries are
unchanged), and the error is `ErrClientFrozen` whenever the header's
consensus type matches the stored tag; a header failing an earlier
precondition check yields that earlier error instead. -/
theorem updateClient_frozen (s : Store) (chainID clientID : String)
    (hd : Header) (cs : ClientState)
    (hcs : GetClientState s clientID = some cs) (hfr : cs.IsFrozen = true) :
    (∃ e, UpdateClient s chainID clientID hd = OpResult.err e s) ∧
    (∀ ct, GetClientType s clientID = some ct → hd.clientType = ct →
      UpdateClient s chainID clientID hd =
        OpResult.err ClientError.ErrClientFrozen s) := by
  have h2 : ∀ ct, GetClientType s clientID = some ct → hd.clientType = ct →
      UpdateClient s chainID clientID hd =
        OpResult.err ClientError.ErrClientFrozen s := by
    intro ct hty hmatch
    unfold UpdateClient
    simp only [hty, hcs, Header.ClientTypeOf]
    simp [hmatch, hfr]
  refine ⟨?_, h2⟩
  cases hty : GetClientType s clientID with
  | none =>
    exact ⟨ClientError.ErrClientTypeNotFound, by unfold UpdateClient; rw [hty]⟩
  | some ct =>
    by_cases hmatch : hd.clientType = ct
    · exact ⟨ClientError.ErrClientFrozen, h2 ct hty hmatch⟩
    · refine ⟨ClientError.ErrInvalidConsensus, ?_⟩
      unfold UpdateClient
      simp only [hty, Header.ClientTypeOf]
      simp [hmatch]

/-- Witness for C1 at a concrete input: a frozen client with a matching
tendermint header fails with `ErrClientFrozen` and the unchanged store. -/
theorem updateClient_frozen_witness :
    (GetClientState storeFrozen "c" = some csFrozen ∧
     csFrozen.IsFrozen = true ∧
     GetClientType storeFrozen "c" = some ClientType.Tendermint ∧
     hdrT10.clientType = ClientType.Tendermint) ∧
    UpdateClient storeFrozen "gaia" "c" hdrT10 =
      OpResult.err ClientError.ErrClientFrozen storeFrozen :=
  ⟨⟨by rfl, by rfl, by rfl, by rfl⟩,
   (updateClient_frozen storeFrozen "gaia" "c" hdrT10 csFrozen (by rfl)
      (by rfl)).2 ClientType.Tendermint (by rfl) (by rfl)⟩

/-- Claim C6 counterexample: the operation `CheckMisbehaviourAndUpdateState` does not
reject evidence whose consensus type differs from the client's stored
ConsensusTypeTag: with a stored tag `Other` and tendermint evidence (claimed
type `Tendermint`), the call dispatches on the evidence's concrete type,
succeeds, and mutates the stored ClientState instead of failing. -/
theorem typeMismatch_counterexample :
    GetClientType storeOtherTag "c" = some ClientType.Other ∧
    Misbehaviour.ClientTypeOf (Misbehaviour.tm evConf7) = ClientType.Tendermint ∧
    CheckMisbehaviourAndUpdateState storeOtherTag (Misbehaviour.tm evConf7) =
      OpResult.ok () storeOtherTagAfter ∧
    GetClientState storeOtherTagAfter "c" ≠ GetClientState storeOtherTag "c" :=
  ⟨by rfl, by rfl, by decide, by decide⟩

/-- Claim C6 (amended): here `UpdateClient` fails with `ErrInvalidConsensus` and
no state change for a header whose consensus type differs from the stored
tag; `CheckMisbehaviourAndUpdateState` dispatches on the evidence's concrete
type only — an evidence value of unrecognized concrete type is rejected
with `ErrUnknownRequest` and no state change, but the evidence's consensus
type is never compared with the stored tag. -/
theorem typeMismatch_rejection (s : Store) (chainID clientID cid : String)
    (hd : Header) (ct : ClientType) (h : Nat) (cs : ClientState)
    (cons : ConsensusState) :
    (GetClientType s clientID = some ct → hd.clientType ≠ ct →
      UpdateClient s chainID clientID hd =
        OpResult.err ClientError.ErrInvalidConsensus s) ∧
    (GetClientState s cid = some cs → GetClientConsensusState s cid h = some cons →
      CheckMisbehaviourAndUpdateState s (Misbehaviour.unknownEvidence cid h) =
        OpResult.err ClientError.ErrUnknownRequest s) := by
  constructor
  · intro hty hmatch
    unfold UpdateClient
    simp only [hty, Header.ClientTypeOf]
    simp [hmatch]
  · intro h1 h2
    unfold CheckMisbehaviourAndUpdateState
    simp only [Misbehaviour.GetClientID, Misbehaviour.GetHeight, h1, h2]

/-- Witness for the amended C6 at concrete inputs: a wrong-type header is
rejected with `ErrInvalidConsensus`, and unrecognized evidence is rejected
with `ErrUnknownRequest`, both with the unchanged store. -/
theorem typeMismatch_rejection_witness :
    (GetClientType storeActive "c" = some ClientType.Tendermint ∧
     hdrOther10.clientType ≠ ClientType.Tendermint) ∧
    UpdateClient storeActive "gaia" "c" hdrOther10 =
      OpResult.err ClientError.ErrInvalidConsensus storeActive ∧
    CheckMisbehaviourAndUpdateState storeActive (Misbehaviour.unknownEvidence "c" 5) =
      OpResult.err ClientError.ErrUnknownRequest storeActive :=
  ⟨⟨by rfl, by decide⟩,
   (typeMismatch_rejection storeActive "gaia" "c" "c" hdrOther10
      ClientType.Tendermint 5 csA consA).1 (by rfl) (by decide),
   (typeMismatch_rejection storeActive "gaia" "c" "c" hdrOther10
      ClientType.Tendermint 5 csA consA).2 (by rfl) (by rfl)⟩

/-- Claim C8: for a stored ConsensusTypeTag with no registered verifier
strategy, `UpdateClient` never succeeds and never mutates the store, and it
fails with `ErrInvalidClientType` once the header passes the earlier
precondition checks; the unrecognized-evidence arm of
`CheckMisbehaviourAndUpdateState` likewise fails closed with
`ErrUnknownRequest` rather than silently no-op. -/
theorem unregistered_tag_fails_closed (s : Store) (chainID clientID cid : String)
    (hd : Header) (cs cs₀ : ClientState) (cons : ConsensusState) (h : Nat)
    (hty : GetClientType s clientID = some ClientType.Other) :
    (∃ e, UpdateClient s chainID clientID hd = OpResult.err e s) ∧
    (hd.clientType = ClientType.Other → GetClientState s clientID = some cs →
      cs.IsFrozen = false →
      UpdateClient s chainID clientID hd =
        OpResult.err ClientError.ErrInvalidClientType s) ∧
    (GetClientState s cid = some cs₀ → GetClientConsensusState s cid h = some cons →
      CheckMisbehaviourAndUpdateState s (Misbehaviour.unknownEvidence cid h) =
        OpResult.err ClientError.ErrUnknownRequest s) := by
  refine ⟨?_, ?_, ?_⟩
  · unfold UpdateClient
    simp only [hty, Header.ClientTypeOf]
    by_cases hmatch : hd.clientType = ClientType.Other
    · rw [if_neg (not_not_intro hmatch)]
      cases hgs : GetClientState s clientID with
      | none => exact ⟨ClientError.ErrClientNotFound, rfl⟩
      | some cs' =>
        by_cases hfz : cs'.IsFrozen = true
        · simp only [hfz]
          exact ⟨ClientError.ErrClientFrozen, by simp⟩
        · simp only [hfz]
          exact ⟨ClientError.ErrInvalidClientType, by simp⟩
    · rw [if_pos hmatch]
      exact ⟨ClientError.ErrInvalidConsensus, rfl⟩
  · intro hmatch hgs hfz
    unfold UpdateClient
    simp only [hty, hgs, Header.ClientTypeOf]
    simp [hmatch, hfz]
  · intro h1 h2
    unfold CheckMisbehaviourAndUpdateState
    simp only [Misbehaviour.GetClientID, Misbehaviour.GetHeight, h1, h2]

/-- Witness for C8 at a concrete input: an unfrozen client stored with the
unregistered tag `Other` and a type-matching header fails with
`ErrInvalidClientType` and the unchanged store; unrecognized evidence fails
with `ErrUnknownRequest`. -/
theorem unregistered_tag_fails_closed_witness :
    GetClientType storeOtherTag "c" = some ClientType.Other ∧
    UpdateClient storeOtherTag "gaia" "c" hdrOther10 =
      OpResult.err ClientError.ErrInvalidClientType storeOtherTag ∧
    CheckMisbehaviourAndUpdateState storeOtherTag (Misbehaviour.unknownEvidence "c" 7) =
      OpResult.err ClientError.ErrUnknownRequest storeOtherTag :=
  ⟨by rfl,
   (unregistered_tag_fails_closed storeOtherTag "gaia" "c" "c" hdrOther10
      csA csA ⟨7, 0⟩ 7 (by rfl)).2.1 (by rfl) (by rfl) (by rfl),
   (unregistered_tag_fails_closed storeOtherTag "gaia" "c" "c" hdrOther10
      csA csA ⟨7, 0⟩ 7 (by rfl)).2.2 (by rfl) (by rfl)⟩

/-- Claim C9: a successful `CreateClient` stores the new ClientState under
its identifier, and an immediately following second `CreateClient` with the
same identifier fails with `ErrClientExists` and returns the store
unchanged, leaving the original ClientState intact. -/
theorem createClient_twice (s s1 : Store) (clientID : String)
    (ct ct' : ClientType) (cons cons' : ConsensusState) (cs1 : ClientState)
    (h : CreateClient s clientID ct cons = OpResult.ok cs1 s1) :
    GetClientState s1 clientID = some cs1 ∧
    CreateClient s1 clientID ct' cons' =
      OpResult.err ClientError.ErrClientExists s1 := by
  unfold CreateClient at h
  split at h
  · exact absurd h (by simp)
  split at h
  · exact absurd h (by simp)
  split at h
  · exact absurd h (by simp)
  next cs0 hinit =>
    injection h with hcs hstore
    have hid : cs0.id = clientID := by
      cases ct with
      | Tendermint =>
        simp only [initClientState, Except.ok.injEq] at hinit
        rw [← hinit]
      | Other => simp [initClientState] at hinit
    have hget : GetClientState s1 clientID = some cs1 := by
      rw [← hstore, ← hcs]
      simp only [GetClientState, SetClientType, SetClientState]
      rw [← hid]
      exact getEntry_setEntry_self _ _ _
    refine ⟨hget, ?_⟩
    unfold CreateClient
    simp only [hget]

/-- Witness for C9 at a concrete input: creating client "c" on the empty
store succeeds, and creating it again fails with `ErrClientExists` with the
original ClientState still stored. -/
theorem createClient_twice_witness :
    CreateClient emptyStore "c" ClientType.Tendermint consA =
      OpResult.ok csA storeCreated ∧
    (GetClientState storeCreated "c" = some csA ∧
     CreateClient storeCreated "c" ClientType.Tendermint consA =
       OpResult.err ClientError.ErrClientExists storeCreated) :=
  ⟨by decide,
   createClient_twice emptyStore storeCreated "c" ClientType.Tendermint
     ClientType.Tendermint consA consA csA (by decide)⟩

/-- The modelled tendermint strategy accepts evidence of two independently
valid, mutually conflicting tendermint headers at the evidence height and
returns the ClientState frozen at that height. -/
theorem tmMisb_ok (cs : ClientState) (cons : ConsensusState) (ev : Evidence)
    (h : Nat)
    (hh1 : ev.header1.height = h) (hh2 : ev.header2.height = h)
    (hv1 : ev.header1.valid = true) (hv2 : ev.header2.valid = true)
    (ht1 : ev.header1.clientType = ClientType.Tendermint)
    (ht2 : ev.header2.clientType = ClientType.Tendermint)
    (hconf : ev.header1.root ≠ ev.header2.root) :
    tmCheckMisbehaviourAndUpdateState cs cons (Misbehaviour.tm ev) h =
      Except.ok { cs with frozenHeight := some h } := by
  unfold tmCheckMisbehaviourAndUpdateState
  exact if_pos ⟨hh1, hh2, hv1, hv2, ht1, ht2, hconf⟩

/-- On accepted evidence, the keeper persists the strategy's frozen
ClientState and nothing else. -/
theorem checkMisb_accepts (s : Store) (ev : Evidence) (cs : ClientState)
    (cons : ConsensusState)
    (h1 : GetClientState s ev.clientID = some cs)
    (h2 : GetClientConsensusState s ev.clientID ev.height = some cons)
    (hh1 : ev.header1.height = ev.height) (hh2 : ev.header2.height = ev.height)
    (hv1 : ev.header1.valid = true) (hv2 : ev.header2.valid = true)
    (ht1 : ev.header1.clientType = ClientType.Tendermint)
    (ht2 : ev.header2.clientType = ClientType.Tendermint)
    (hconf : ev.header1.root ≠ ev.header2.root) :
    CheckMisbehaviourAndUpdateState s (Misbehaviour.tm ev) =
      OpResult.ok () (SetClientState s { cs with frozenHeight := some ev.height }) := by
  unfold CheckMisbehaviourAndUpdateState
  simp only [Misbehaviour.GetClientID, Misbehaviour.GetHeight, h1, h2,
    tmMisb_ok cs cons ev ev.height hh1 hh2 hv1 hv2 ht1 ht2 hconf]

/-- Claim C3: on misbehaviour evidence containing two mutually conflicting,
independently valid headers at the evidence height,
`CheckMisbehaviourAndUpdateState` replaces the stored ClientState by the
same record frozen at the evidence height: the frozen flag becomes true
with frozen height equal to the evidence height, the latest-height field is
unchanged, and every stored ConsensusState entry (of this client and of
every other) is unchanged. -/
theorem checkMisbehaviour_freezes (s : Store) (ev : Evidence)
    (cs : ClientState) (cons : ConsensusState)
    (h1 : GetClientState s ev.clientID = some cs) (hid : cs.id = ev.clientID)
    (h2 : GetClientConsensusState s ev.clientID ev.height = some cons)
    (hh1 : ev.header1.height = ev.height) (hh2 : ev.header2.height = ev.height)
    (hv1 : ev.header1.valid = true) (hv2 : ev.header2.valid = true)
    (ht1 : ev.header1.clientType = ClientType.Tendermint)
    (ht2 : ev.header2.clientType = ClientType.Tendermint)
    (hconf : ev.header1.root ≠ ev.header2.root) :
    CheckMisbehaviourAndUpdateState s (Misbehaviour.tm ev) =
      OpResult.ok () (SetClientState s { cs with frozenHeight := some ev.height }) ∧
    GetClientState (SetClientState s { cs with frozenHeight := some ev.height })
      ev.clientID = some { cs with frozenHeight := some ev.height } ∧
    ({ cs with frozenHeight := some ev.height } : ClientState).IsFrozen = true ∧
    ({ cs with frozenHeight := some ev.height } : ClientState).latestHeight =
      cs.latestHeight ∧
    (∀ cid h, GetClientConsensusState
        (SetClientState s { cs with frozenHeight := some ev.height }) cid h =
      GetClientConsensusState s cid h) := by
  refine ⟨checkMisb_accepts s ev cs cons h1 h2 hh1 hh2 hv1 hv2 ht1 ht2 hconf,
    ?_, ?_, rfl, fun cid h => rfl⟩
  · show getEntry (setEntry s.clientStates cs.id _) ev.clientID = _
    rw [hid]
    exact getEntry_setEntry_self _ _ _
  · simp [ClientState.IsFrozen]

/-- Witness for C3 at a concrete input: conflicting valid headers at height
5 freeze client "c" at height 5, leaving its latest height and all
consensus entries unchanged. -/
theorem checkMisbehaviour_freezes_witness :
    (GetClientState storeActive "c" = some csA ∧ csA.id = "c" ∧
     GetClientConsensusState storeActive "c" 5 = some consA ∧
     evConf5.header1.root ≠ evConf5.header2.root) ∧
    (CheckMisbehaviourAndUpdateState storeActive (Misbehaviour.tm evConf5) =
       OpResult.ok () (SetClientState storeActive ⟨"c", 5, some 5⟩) ∧
     GetClientState (SetClientState storeActive ⟨"c", 5, some 5⟩) "c" =
       some ⟨"c", 5, some 5⟩ ∧
     (⟨"c", 5, some 5⟩ : ClientState).IsFrozen = true ∧
     (⟨"c", 5, some 5⟩ : ClientState).latestHeight = csA.latestHeight ∧
     (∀ cid h, GetClientConsensusState
         (SetClientState storeActive ⟨"c", 5, some 5⟩) cid h =
       GetClientConsensusState storeActive cid h)) :=
  ⟨⟨by rfl, by rfl, by rfl, by decide⟩,
   checkMisbehaviour_freezes storeActive evConf5 csA consA (by rfl) (by rfl)
     (by rfl) (by rfl) (by rfl) (by rfl) (by rfl) (by rfl) (by rfl) (by decide)⟩

/-- Claim C10: the operation `CheckMisbehaviourAndUpdateState` never checks whether the
client is already frozen — its only registry-level preconditions are a
stored ClientState for the evidence's client and a stored ConsensusState at
the evidence height — so for an already-frozen client, evidence accepted by
the strategy still overwrites the stored ClientState with the strategy's
result. -/
theorem checkMisbehaviour_ignores_frozen (s : Store) (ev : Evidence)
    (cs : ClientState) (cons : ConsensusState)
    (h1 : GetClientState s ev.clientID = some cs) (hid : cs.id = ev.clientID)
    (_hfr : cs.IsFrozen = true)
    (h2 : GetClientConsensusState s ev.clientID ev.height = some cons)
    (hh1 : ev.header1.height = ev.height) (hh2 : ev.header2.height = ev.height)
    (hv1 : ev.header1.valid = true) (hv2 : ev.header2.valid = true)
    (ht1 : ev.header1.clientType = ClientType.Tendermint)
    (ht2 : ev.header2.clientType = ClientType.Tendermint)
    (hconf : ev.header1.root ≠ ev.header2.root) :
    CheckMisbehaviourAndUpdateState s (Misbehaviour.tm ev) =
      OpResult.ok () (SetClientState s { cs with frozenHeight := some ev.height }) ∧
    GetClientState (SetClientState s { cs with frozenHeight := some ev.height })
      ev.clientID = some { cs with frozenHeight := some ev.height } := by
  refine ⟨checkMisb_accepts s ev cs cons h1 h2 hh1 hh2 hv1 hv2 ht1 ht2 hconf, ?_⟩
  show getEntry (setEntry s.clientStates cs.id _) ev.clientID = _
  rw [hid]
  exact getEntry_setEntry_self _ _ _

/-- Witness for C10 at a concrete input: client "c" is already frozen (at
height 4), yet accepted evidence at height 5 overwrites its stored
ClientState with the strategy's result (frozen height 5). -/
theorem checkMisbehaviour_ignores_frozen_witness :
    (GetClientState storeFrozen "c" = some csFrozen ∧
     csFrozen.IsFrozen = true ∧
     GetClientConsensusState storeFrozen "c" 5 = some consA) ∧
    (CheckMisbehaviourAndUpdateState storeFrozen (Misbehaviour.tm evConf5) =
       OpResult.ok () (SetClientState storeFrozen ⟨"c", 5, some 5⟩) ∧
     GetClientState (SetClientState storeFrozen ⟨"c", 5, some 5⟩) "c" =
       some ⟨"c", 5, some 5⟩) :=
  ⟨⟨by rfl, by rfl, by rfl⟩,
   checkMisbehaviour_ignores_frozen storeFrozen evConf5 csFrozen consA (by rfl)
     (by rfl) (by rfl) (by rfl) (by rfl) (by rfl) (by rfl) (by rfl) (by rfl)
     (by rfl) (by decide)⟩

/-- Anatomy of a successful `UpdateClient` call: the client was unfrozen,
the header strictly raises the latest verified height, and the new store
holds the same ClientState with the header's height as latest height. -/
theorem updateClient_ok_step (s s' : Store) (chainID clientID : String)
    (hd : Header) (cs : ClientState) (u : Unit)
    (hcs : GetClientState s clientID = some cs) (hid : cs.id = clientID)
    (h : UpdateClient s chainID clientID hd = OpResult.ok u s') :
    GetClientState s' clientID = some { cs with latestHeight := hd.height } ∧
    ({ cs with latestHeight := hd.height } : ClientState).id = clientID ∧
    cs.IsFrozen = false ∧
    cs.latestHeight ≤ hd.height := by
  unfold UpdateClient at h
  split at h
  · exact absurd h (by simp)
  next ct hty =>
    split at h
    · exact absurd h (by simp)
    split at h
    · exact absurd h (by simp)
    next cs0 hgs =>
      rw [hcs] at hgs
      injection hgs with hgs
      subst hgs
      split at h
      · exact absurd h (by simp)
      next hnfz =>
        split at h
        · split at h
          · exact absurd h (by simp)
          next cs' cons' hok =>
            unfold tmCheckValidityAndUpdateState at hok
            split at hok
            next hcond =>
              injection hok with hpair
              cases hpair
              injection h with _ hstore
              subst hstore
              refine ⟨?_, hid, ?_, le_of_lt hcond.2⟩
              · show getEntry (setEntry s.clientStates
                  ({ cs with latestHeight := hd.height } : ClientState).id
                  { cs with latestHeight := hd.height }) clientID = _
                show getEntry (setEntry s.clientStates cs.id
                  { cs with latestHeight := hd.height }) clientID = _
                rw [hid]
                exact getEntry_setEntry_self _ _ _
              · simp only [Bool.not_eq_true] at hnfz
                exact hnfz
            · exact absurd hok (by simp)
        · exact absurd h (by simp)

/-- Claim C2: along any run of accepted header updates on one client, the
observed ClientState sequence has non-decreasing latest heights (starting
from the initial state) and the frozen flag stays false throughout. -/
theorem updateClient_monotone (chainID clientID : String) (s : Store)
    (hs : List Header) (tr : List ClientState) (cs : ClientState)
    (h0 : GetClientState s clientID = some cs) (hid : cs.id = clientID)
    (htr : clientTrace chainID clientID s hs = some tr) :
    List.Chain (fun a b => a.latestHeight ≤ b.latestHeight) cs tr ∧
    ∀ c ∈ tr, c.IsFrozen = false := by
  induction hs generalizing s cs tr with
  | nil =>
    unfold clientTrace at htr
    injection htr with htr
    subst htr
    exact ⟨List.Chain.nil, by simp⟩
  | cons hd rest ih =>
    unfold clientTrace at htr
    split at htr
    next u s' hupd =>
      split at htr
      next cs1 tl hgs1 htl =>
        injection htr with htr
        subst htr
        obtain ⟨hget, hid1, hfz, hle⟩ :=
          updateClient_ok_step s s' chainID clientID hd cs u h0 hid hupd
        rw [hget] at hgs1
        injection hgs1 with hgs1
        subst hgs1
        obtain ⟨hchain, hfro⟩ := ih s' tl _ hget hid1 htl
        refine ⟨List.Chain.cons hle hchain, ?_⟩
        intro c hc
        rcases List.mem_cons.mp hc with rfl | hc'
        · show ({ cs with latestHeight := hd.height } : ClientState).IsFrozen = false
          show cs.IsFrozen = false
          exact hfz
        · exact hfro c hc'
      next hne => exact absurd htr (by simp)
    next hne => exact absurd htr (by simp)

/-- Witness for C2 at a concrete input: two accepted updates at heights 6
and 8 produce the non-decreasing trace 5 ≤ 6 ≤ 8 with the frozen flag false
throughout. -/
theorem updateClient_monotone_witness :
    (GetClientState storeActive "c" = some csA ∧ csA.id = "c" ∧
     clientTrace "gaia" "c" storeActive [hdrT6, hdrT8] =
       some [⟨"c", 6, none⟩, ⟨"c", 8, none⟩]) ∧
    (List.Chain (fun a b => a.latestHeight ≤ b.latestHeight) csA
       [⟨"c", 6, none⟩, ⟨"c", 8, none⟩] ∧
     ∀ c ∈ [(⟨"c", 6, none⟩ : ClientState), ⟨"c", 8, none⟩],
       c.IsFrozen = false) :=
  ⟨⟨by rfl, by rfl, by decide⟩,
   updateClient_monotone "gaia" "c" storeActive [hdrT6, hdrT8]
     [⟨"c", 6, none⟩, ⟨"c", 8, none⟩] csA (by rfl) (by rfl) (by decide)⟩

/-- Writing a fresh key preserves every successful lookup. -/
theorem getEntry_setEntry_fresh {α β : Type} [DecidableEq α]
    (l : List (α × β)) (k : α) (v : β) (hfresh : getEntry l k = none)
    (k₀ : α) (v₀ : β) (h : getEntry l k₀ = some v₀) :
    getEntry (setEntry l k v) k₀ = some v₀ := by
  by_cases hk : k₀ = k
  · subst hk
    rw [h] at hfresh
    exact absurd hfresh (by simp)
  · rw [getEntry_setEntry_ne _ _ _ _ hk]
    exact h

/-- Storing a ClientState under a fresh identifier preserves the store
invariant. -/
theorem StoreInv_create (s : Store) (cs0 : ClientState) (hInv : StoreInv s)
    (hnone : GetClientState s cs0.id = none) :
    StoreInv (SetClientState s cs0) := by
  obtain ⟨hIds, hOK⟩ := hInv
  constructor
  · intro p hp
    simp only [SetClientState] at hp
    rcases mem_setEntry _ _ _ p hp with rfl | hold
    · rfl
    · exact hIds p hold
  · intro q hq
    simp only [SetClientState] at hq
    have hOKq := hOK q hq
    unfold consEntryOK at hOKq ⊢
    simp only [SetClientState]
    by_cases hk : q.1.1 = cs0.id
    · rw [hk] at hOKq
      have hnone' : getEntry s.clientStates cs0.id = none := hnone
      rw [hnone'] at hOKq
      exact absurd hOKq (by simp)
    · rw [getEntry_setEntry_ne _ _ _ _ hk]
      exact hOKq

/-- Replacing a stored ClientState by one with the same identifier and a
latest height at least as large preserves the store invariant. -/
theorem StoreInv_set_existing (s : Store) (k : String) (cs cs' : ClientState)
    (hInv : StoreInv s) (hgs : GetClientState s k = some cs)
    (hid' : cs'.id = k) (hle : cs.latestHeight ≤ cs'.latestHeight) :
    StoreInv (SetClientState s cs') := by
  obtain ⟨hIds, hOK⟩ := hInv
  constructor
  · intro p hp
    simp only [SetClientState] at hp
    rcases mem_setEntry _ _ _ p hp with rfl | hold
    · rfl
    · exact hIds p hold
  · intro q hq
    simp only [SetClientState] at hq
    have hOKq := hOK q hq
    unfold consEntryOK at hOKq ⊢
    simp only [SetClientState]
    by_cases hk : q.1.1 = k
    · rw [hk] at hOKq ⊢
      rw [← hid', getEntry_setEntry_self]
      have hgs' : getEntry s.clientStates k = some cs := hgs
      rw [hgs'] at hOKq
      simp only [decide_eq_true_eq] at hOKq ⊢
      omega
    · rw [getEntry_setEntry_ne _ _ _ _ (fun hh => hk (hh.trans hid'))]
      exact hOKq

/-- Adding a ConsensusState entry at a height covered by its client's
latest verified height preserves the store invariant. -/
theorem StoreInv_add_consensus (s : Store) (k : String) (h : Nat)
    (v : ConsensusState) (cs : ClientState) (hInv : StoreInv s)
    (hgs : GetClientState s k = some cs) (hle : h ≤ cs.latestHeight) :
    StoreInv (SetClientConsensusState s k h v) := by
  obtain ⟨hIds, hOK⟩ := hInv
  constructor
  · intro p hp
    exact hIds p hp
  · intro q hq
    simp only [SetClientConsensusState] at hq
    rcases mem_setEntry _ _ _ q hq with rfl | hold
    · unfold consEntryOK
      simp only [SetClientConsensusState]
      have hgs' : getEntry s.clientStates k = some cs := hgs
      rw [hgs']
      simp only [decide_eq_true_eq]
      exact hle
    · have hOKq := hOK q hold
      unfold consEntryOK at hOKq ⊢
      simp only [SetClientConsensusState]
      exact hOKq

/-- The modelled tendermint strategy only ever returns the input
ClientState frozen at the given height. -/
theorem tmMisb_ok_inv (cs : ClientState) (cons : ConsensusState)
    (m : Misbehaviour) (h : Nat) (cs' : ClientState)
    (hok : tmCheckMisbehaviourAndUpdateState cs cons m h = Except.ok cs') :
    cs' = { cs with frozenHeight := some h } := by
  unfold tmCheckMisbehaviourAndUpdateState at hok
  split at hok
  next ev =>
    split at hok
    · injection hok with hok
      exact hok.symm
    · exact absurd hok (by simp)
  next cid h2 => exact absurd hok (by simp)

/-- Claim C7: on any store satisfying the sanity invariant, none of the
three registry operations overwrites or removes a stored ConsensusState
entry — every previously stored (identifier, height) snapshot is still
present with the same value after the call — and the invariant is
preserved, so the set of stored ConsensusState entries only grows. -/
theorem consensus_entries_grow (s : Store) (chainID clientID cid2 : String)
    (ct : ClientType) (cons : ConsensusState) (hd : Header) (m : Misbehaviour)
    (hInv : StoreInv s) :
    ConsPreserved s (CreateClient s cid2 ct cons) ∧
    ConsPreserved s (UpdateClient s chainID clientID hd) ∧
    ConsPreserved s (CheckMisbehaviourAndUpdateState s m) := by
  refine ⟨?_, ?_, ?_⟩
  · intro s' hs'
    unfold CreateClient at hs'
    split at hs'
    · simp only [storeOf] at hs'
      injection hs' with hs'
      subst hs'
      exact ⟨fun i j w hw => hw, hInv⟩
    next hnone =>
      split at hs'
      · simp only [storeOf] at hs'
        exact absurd hs' (by simp)
      split at hs'
      · simp only [storeOf] at hs'
        injection hs' with hs'
        subst hs'
        exact ⟨fun i j w hw => hw, hInv⟩
      next cs0 hinit =>
        simp only [storeOf] at hs'
        injection hs' with hs'
        subst hs'
        refine ⟨fun i j w hw => hw, ?_⟩
        have hid0 : cs0.id = cid2 := by
          cases ct with
          | Tendermint =>
            simp only [initClientState, Except.ok.injEq] at hinit
            rw [← hinit]
          | Other => simp [initClientState] at hinit
        have hbase : StoreInv (SetClientState s cs0) :=
          StoreInv_create s cs0 hInv (by rw [hid0]; exact hnone)
        exact hbase
  · intro s' hs'
    unfold UpdateClient at hs'
    split at hs'
    · simp only [storeOf] at hs'
      injection hs' with hs'
      subst hs'
      exact ⟨fun i j w hw => hw, hInv⟩
    next ct0 hty =>
      split at hs'
      · simp only [storeOf] at hs'
        injection hs' with hs'
        subst hs'
        exact ⟨fun i j w hw => hw, hInv⟩
      split at hs'
      · simp only [storeOf] at hs'
        injection hs' with hs'
        subst hs'
        exact ⟨fun i j w hw => hw, hInv⟩
      next cs hgs =>
        split at hs'
        · simp only [storeOf] at hs'
          injection hs' with hs'
          subst hs'
          exact ⟨fun i j w hw => hw, hInv⟩
        next hnfz =>
          split at hs'
          · split at hs'
            · simp only [storeOf] at hs'
              injection hs' with hs'
              subst hs'
              exact ⟨fun i j w hw => hw, hInv⟩
            next cs' cons' hok =>
              simp only [storeOf] at hs'
              injection hs' with hs'
              subst hs'
              unfold tmCheckValidityAndUpdateState at hok
              split at hok
              next hcond =>
                injection hok with hpair
                cases hpair
                have hid : cs.id = clientID :=
                  hInv.1 (clientID, cs) (mem_of_getEntry _ _ _ hgs)
                have hfresh :
                    getEntry s.consensusStates (clientID, hd.GetHeight) = none := by
                  cases hex : getEntry s.consensusStates (clientID, hd.GetHeight) with
                  | none => rfl
                  | some w =>
                    exfalso
                    have hq := hInv.2 ((clientID, hd.GetHeight), w)
                      (mem_of_getEntry _ _ _ hex)
                    have hgs' : getEntry s.clientStates clientID = some cs := hgs
                    simp [consEntryOK, hgs', Header.GetHeight] at hq
                    have := hcond.2
                    omega
                constructor
                · intro i j w hw
                  have hw' : getEntry s.consensusStates (i, j) = some w := hw
                  show getEntry (setEntry s.consensusStates
                    (clientID, hd.GetHeight) _) (i, j) = some w
                  exact getEntry_setEntry_fresh _ _ _ hfresh _ _ hw'
                · have hInv1 :
                      StoreInv (SetClientState s { cs with latestHeight := hd.height }) :=
                    StoreInv_set_existing s clientID cs _ hInv hgs hid
                      (le_of_lt hcond.2)
                  have hgs1 : GetClientState
                      (SetClientState s { cs with latestHeight := hd.height })
                      clientID = some { cs with latestHeight := hd.height } := by
                    show getEntry (setEntry s.clientStates cs.id
                      { cs with latestHeight := hd.height }) clientID = _
                    rw [hid]
                    exact getEntry_setEntry_self _ _ _
                  exact StoreInv_add_consensus _ clientID hd.GetHeight _ _ hInv1
                    hgs1 (Nat.le_refl _)
              · exact absurd hok (by simp)
          · simp only [storeOf] at hs'
            injection hs' with hs'
            subst hs'
            exact ⟨fun i j w hw => hw, hInv⟩
  · intro s' hs'
    unfold CheckMisbehaviourAndUpdateState at hs'
    split at hs'
    · simp only [storeOf] at hs'
      injection hs' with hs'
      subst hs'
      exact ⟨fun i j w hw => hw, hInv⟩
    next cs hgs =>
      split at hs'
      · simp only [storeOf] at hs'
        injection hs' with hs'
        subst hs'
        exact ⟨fun i j w hw => hw, hInv⟩
      next cons0 hcons =>
        split at hs'
        · split at hs'
          · simp only [storeOf] at hs'
            injection hs' with hs'
            subst hs'
            exact ⟨fun i j w hw => hw, hInv⟩
          next cs' hok =>
            simp only [storeOf] at hs'
            injection hs' with hs'
            subst hs'
            refine ⟨fun i j w hw => hw, ?_⟩
            have hcs' := tmMisb_ok_inv _ _ _ _ _ hok
            subst hcs'
            have hid : cs.id = _ :=
              hInv.1 (_, cs) (mem_of_getEntry _ _ _ hgs)
            exact StoreInv_set_existing s _ cs _ hInv hgs hid (Nat.le_refl _)
        · simp only [storeOf] at hs'
          injection hs' with hs'
          subst hs'
          exact ⟨fun i j w hw => hw, hInv⟩

/-- Witness for C7 at a concrete input: the invariant holds of the active
store, and each of the three operations there preserves all stored
ConsensusState entries and the invariant. -/
theorem consensus_entries_grow_witness :
    StoreInv storeActive ∧
    (ConsPreserved storeActive
       (CreateClient storeActive "d" ClientType.Tendermint consA) ∧
     ConsPreserved storeActive (UpdateClient storeActive "gaia" "c" hdrT6) ∧
     ConsPreserved storeActive
       (CheckMisbehaviourAndUpdateState storeActive (Misbehaviour.tm evConf5))) :=
  ⟨by unfold StoreInv; decide,
   consensus_entries_grow storeActive "gaia" "c" "d" ClientType.Tendermint
     consA hdrT6 (Misbehaviour.tm evConf5) (by unfold StoreInv; decide)⟩
